import Mathlib

/-!
Verification of the payment-widget repository core against its specification.

The development shallowly embeds the two JavaScript sources that carry the
algorithmic content:
  * `src/client/src/validators.js` — card-field formatting and validation
    (pure string functions, embedded directly on `List Char` / `String`);
  * `src/server/src/jwt.js` and `src/server/src/app.js` — token issuance and
    verification, payload decryption, and the `/api/payment` request handler.
    The `jose` library primitives (RS256 JWS, RSA-OAEP-256/A256GCM JWE) are
    modelled symbolically: a signed token / sealed envelope is represented by
    a constructor recording the key it was produced with, and verification /
    decryption succeed exactly on a matching key, reproducing the library's
    documented error messages.

Wall-clock instants are explicit parameters (seconds for token expiry,
a month-resolution instant for card-expiry checking).
-/

namespace PW

/-! ## Card-field validator (`src/client/src/validators.js`) -/

/-- The space character used between digit groups. -/
def sp : Char := ' '

/-- The slash separating month from year in `MM/YY`. -/
def slash : Char := '/'

/-- Characters matched by the JavaScript regex class `\s`
(per ECMA-262: tab, LF, VT, FF, CR, space, NBSP, U+1680, U+2000–U+200A,
U+2028, U+2029, U+202F, U+205F, U+3000, U+FEFF). -/
def jsIsSpace (c : Char) : Bool :=
  c == ' ' || c == '\t' || c == '\n' || c == '\r' ||
  c.val == 0x0b || c.val == 0x0c || c.val == 0xa0 || c.val == 0x1680 ||
  (0x2000 ≤ c.val && c.val ≤ 0x200a) || c.val == 0x2028 || c.val == 0x2029 ||
  c.val == 0x202f || c.val == 0x205f || c.val == 0x3000 || c.val == 0xfeff

/-- Numeric value of a decimal digit character (JS `parseInt` on one char). -/
def digitVal (c : Char) : Nat := c.toNat - '0'.toNat

/-- `digits.match(/.{1,4}/g)`: split a list into consecutive groups of at
most four characters (all groups of four except possibly the last). -/
def chunk4 : List Char → List (List Char)
  | [] => []
  | [a] => [[a]]
  | [a, b] => [[a, b]]
  | [a, b, c] => [[a, b, c]]
  | a :: b :: c :: d :: rest => [a, b, c, d] :: chunk4 rest

/-- `groups.join(' ')`: interleave a single space between groups. -/
def joinSp : List (List Char) → List Char
  | [] => []
  | [g] => g
  | g :: g' :: gs => g ++ sp :: joinSp (g' :: gs)

/-- Core of `formatCardNumber` on character lists: strip non-digits, group
by four, join with single spaces, keep the first 19 characters. -/
def formatCardNumberL (l : List Char) : List Char :=
  (joinSp (chunk4 (l.filter Char.isDigit))).take 19

/-- `formatCardNumber(value)` from `validators.js`. -/
def formatCardNumber (s : String) : String :=
  ⟨formatCardNumberL s.data⟩

/-- `formatExpirationDate(value)` from `validators.js`: strip non-digits;
with at least two digits return `dd/` followed by up to two more digits,
otherwise return the digit string unchanged. -/
def formatExpirationDate (s : String) : String :=
  let d := s.data.filter Char.isDigit
  if 2 ≤ d.length then ⟨d.take 2 ++ slash :: (d.drop 2).take 2⟩ else ⟨d⟩

/-- `formatCvv(value)` from `validators.js`. -/
def formatCvv (s : String) : String :=
  ⟨(s.data.filter Char.isDigit).take 4⟩

/-- `formatPostalCode(value)` from `validators.js`. -/
def formatPostalCode (s : String) : String :=
  ⟨(s.data.filter Char.isDigit).take 5⟩

/-- Result record of `validateCardNumber`. -/
structure CardCheck where
  valid : Bool
  message : String
deriving DecidableEq

/-- The Luhn loop of `validateCardNumber`, iterating over the digit
characters from least significant to most significant; the Boolean flag
(`isEven` in the source, initially `false`) says whether the current digit
is doubled, with doubled values above 9 reduced by 9. -/
def luhnStep : Bool → List Char → Nat
  | _, [] => 0
  | dbl, c :: cs =>
    (if dbl then (if 9 < 2 * digitVal c then 2 * digitVal c - 9 else 2 * digitVal c)
     else digitVal c) + luhnStep (!dbl) cs

/-- `validateCardNumber(cardNumber)` from `validators.js`: remove `\s`
characters, require 13–19 decimal digits, then apply the Luhn checksum. -/
def validateCardNumber (s : String) : CardCheck :=
  let cleaned := s.data.filter (fun c => !(jsIsSpace c))
  if 13 ≤ cleaned.length ∧ cleaned.length ≤ 19 ∧ cleaned.all Char.isDigit then
    if luhnStep false cleaned.reverse % 10 = 0 then ⟨true, ""⟩
    else ⟨false, "Invalid card number"⟩
  else ⟨false, "Card number must be 13-19 digits"⟩

/-- A wall-clock instant at the granularity the card-expiry check needs:
`monthIdx` counts months from year 0 (`year * 12 + zero-based month`), and
`frac` is the time elapsed since the first moment of that month (`frac = 0`
is exactly the month boundary).  `new Date(year, month)` in the source is
the instant `⟨year * 12 + month, 0⟩` (JS months are zero-based and overflow
into the year, so passing the one-based month yields the start of the
following month). -/
structure Instant where
  monthIdx : Nat
  frac : Nat
deriving DecidableEq

/-- Comparison of two instants (`Date` `<` in the source). -/
def Instant.before (a b : Instant) : Prop :=
  a.monthIdx < b.monthIdx ∨ (a.monthIdx = b.monthIdx ∧ a.frac < b.frac)

instance (a b : Instant) : Decidable (a.before b) := by
  unfold Instant.before
  exact inferInstance

/-- `validateExpirationDate(value)` from `validators.js`, with the current
instant passed explicitly in place of `new Date()`. -/
def validateExpirationDate (s : String) (now : Instant) : Option String :=
  if s.isEmpty then some "Expiration date is required"
  else
    match s.data with
    | [m1, m2, c, y1, y2] =>
      if m1.isDigit ∧ m2.isDigit ∧ c = slash ∧ y1.isDigit ∧ y2.isDigit then
        let month := 10 * digitVal m1 + digitVal m2
        let year := 10 * digitVal y1 + digitVal y2 + 2000
        if month < 1 ∨ 12 < month then some "Invalid month"
        else if Instant.before ⟨year * 12 + month, 0⟩ now then some "Card has expired"
        else none
      else some "Expiration date must be MM/YY format"
    | _ => some "Expiration date must be MM/YY format"

/-- `validateCvv(value)` from `validators.js`. -/
def validateCvv (s : String) : Option String :=
  if s.isEmpty then some "CVV is required"
  else if s.length < 3 ∨ 4 < s.length then some "CVV must be 3-4 digits"
  else none

/-- `validatePostalCode(value)` from `validators.js`. -/
def validatePostalCode (s : String) : Option String :=
  if s.isEmpty then some "Postal code is required"
  else if s.length ≠ 5 then some "Postal code must be 5 digits"
  else none

/-! ## Symbolic model of the `jose` primitives

Keys are identified by a `Nat`: `n` names a keypair whose public and private
halves belong together, so "sign/seal under key `n`" can only be
verified/opened with the same `n`.  JSON values are the payload universe. -/

/-- JSON values (`JSON.parse` / `JSON.stringify` universe); numbers are kept
exact as rationals since the code never computes with them. -/
inductive Jval where
  | jnull : Jval
  | jbool : Bool → Jval
  | jnum : ℚ → Jval
  | jstr : String → Jval
  | jarr : List Jval → Jval
  | jobj : List (String × Jval) → Jval

/-- First-match lookup among the fields of a JSON object. -/
def lookupField : List (String × Jval) → String → Option Jval
  | [], _ => none
  | (k', v) :: r, k => if k' = k then some v else lookupField r k

/-- JS property access `value.key`: on an object, `some` field value or
`none` (i.e. `undefined`) for a missing field; on `null`, a thrown
`TypeError` with V8's message; on any other primitive or an array,
`undefined` (primitives are boxed, so access succeeds). -/
def getField : Jval → String → Except String (Option Jval)
  | .jobj fields, k => .ok (lookupField fields k)
  | .jnull, k => .error ("Cannot read properties of null (reading '" ++ k ++ "')")
  | _, _ => .ok none

/-- A decoded JWT payload: the caller-supplied claims plus the registered
claims `iat`/`exp`/`iss` that `SignJWT` appends at issuance. -/
structure JwtPayload where
  fields : List (String × Jval)
  iat : Nat
  exp : Nat
  iss : String

/-- The protected header of a JWS. -/
structure JwsHeader where
  alg : String
  typ : String

/-- A JWS artifact as the verifier sees it: either a token whose signature
checks out under the public half of keypair `keyId` (recording the protected
header and payload it authenticates), or any other string — tampered,
truncated, empty, or otherwise malformed — whose signature verifies under no
key. -/
inductive Token where
  | signed : (keyId : Nat) → JwsHeader → JwtPayload → Token
  | malformed : String → Token

/-- The two error classes of `jose.jwtVerify` the server distinguishes:
`ERR_JWT_EXPIRED` versus every other verification failure. -/
inductive JoseErr where
  | jwtExpired : JoseErr
  | other : JoseErr

/-- `jose.jwtVerify(token, publicKey, { algorithms, issuer })`: signature,
algorithm and issuer checks come first; the `exp` claim is validated (with
zero tolerance, expired iff `exp ≤ now`) only on a token that already passed
them. -/
def jwtVerify (tok : Token) (pubKeyId : Nat) (allowedAlgs : List String)
    (requiredIss : String) (now : Nat) : Except JoseErr JwtPayload :=
  match tok with
  | .malformed _ => .error .other
  | .signed k h p =>
    if k = pubKeyId ∧ h.alg ∈ allowedAlgs ∧ p.iss = requiredIss then
      if p.exp ≤ now then .error .jwtExpired else .ok p
    else .error .other

/-- Plaintext bytes inside a JWE: either the UTF-8 JSON serialization of a
value (what `encryptPayload` produces), or bytes that are not valid JSON,
identified by the `JSON.parse` error message they would produce. -/
inductive PlainBytes where
  | ofJson : Jval → PlainBytes
  | nonJson : String → PlainBytes

/-- A compact-JWE artifact as the recipient sees it: `sealed keyId pt` is a
well-formed envelope for keypair `keyId` protecting plaintext `pt`
(`RSA-OAEP-256` / `A256GCM`); `tamperedTag keyId` is structurally valid but
its authentication tag no longer verifies; `malformed s` is any string that
is not a compact JWE at all. -/
inductive Jwe where
  | sealed : (keyId : Nat) → PlainBytes → Jwe
  | tamperedTag : Nat → Jwe
  | malformed : String → Jwe

/-- `jose.compactDecrypt(jwe, privateKey)` with the library's documented
error messages: `JWEInvalid` ("Invalid Compact JWE") on structural
malformation, `JWEDecryptionFailed` ("decryption operation failed") on a
key-unwrap failure or authentication-tag mismatch. -/
def compactDecrypt (e : Jwe) (privKeyId : Nat) : Except String PlainBytes :=
  match e with
  | .malformed _ => .error "Invalid Compact JWE"
  | .tamperedTag _ => .error "decryption operation failed"
  | .sealed k pt => if k = privKeyId then .ok pt else .error "decryption operation failed"

/-- `JSON.parse` on decrypted plaintext bytes. -/
def jsonParse : PlainBytes → Except String Jval
  | .ofJson v => .ok v
  | .nonJson msg => .error msg

/-! ## Server-side token and cipher wrappers (`src/server/src/jwt.js`) -/

/-- The fixed issuer identifier set by `issueAuthToken`. -/
def issuerName : String := "jwt-payment-server"

/-- `issueAuthToken(claims)`: an RS256 JWS over the claims augmented with
`iat = now`, `exp = now + 300` (from `setExpirationTime('5m')`) and the
fixed issuer, signed with the auth private key. -/
def issueAuthToken (claims : List (String × Jval)) (authKeyId : Nat) (now : Nat) : Token :=
  .signed authKeyId ⟨"RS256", "JWT"⟩ ⟨claims, now, now + 300, issuerName⟩

/-- `verifyAuthToken(token)`: delegate to `jwtVerify` restricted to RS256
and the fixed issuer, mapping `ERR_JWT_EXPIRED` to the message
"Auth token has expired" and every other failure to "Invalid auth token". -/
def verifyAuthToken (tok : Token) (authKeyId : Nat) (now : Nat) : Except String JwtPayload :=
  match jwtVerify tok authKeyId ["RS256"] issuerName now with
  | .ok p => .ok p
  | .error .jwtExpired => .error "Auth token has expired"
  | .error .other => .error "Invalid auth token"

/-- `decryptPayload(jwe)`: `compactDecrypt` with the encryption private key
followed by `JSON.parse`, any failure of either step rethrown as
"Failed to decrypt payload: " plus the underlying cause's message. -/
def decryptPayload (jwe : Jwe) (encKeyId : Nat) : Except String Jval :=
  match compactDecrypt jwe encKeyId with
  | .error msg => .error ("Failed to decrypt payload: " ++ msg)
  | .ok pt =>
    match jsonParse pt with
    | .ok v => .ok v
    | .error msg => .error ("Failed to decrypt payload: " ++ msg)

/-- `encryptPayload(payload)` from `src/client/src/jwt.js`: serialize the
payload to UTF-8 JSON and seal it in a compact JWE under the recipient's
public key (`RSA-OAEP-256` key wrap, `A256GCM` content encryption). -/
def encryptPayload (payload : Jval) (encPubKeyId : Nat) : Jwe :=
  .sealed encPubKeyId (.ofJson payload)

/-! ## The `/api/payment` handler (`src/server/src/app.js`) -/

/-- JS `haystack.startsWith(needle)` on character lists. -/
def isPrefixL : List Char → List Char → Bool
  | [], _ => true
  | _ :: _, [] => false
  | a :: as, b :: bs => a == b && isPrefixL as bs

/-- JS `haystack.includes(needle)` on character lists. -/
def containsL : List Char → List Char → Bool
  | [], needle => needle.isEmpty
  | h :: t, needle => isPrefixL needle (h :: t) || containsL t needle

/-- JS `s.includes(sub)`. -/
def includes (s sub : String) : Bool := containsL s.data sub.data

/-- The `Authorization` header value: `bearer t` is a string of the shape
`"Bearer " ++ serialized token` (the remainder deserializing to `t`, with
garbage remainders covered by `Token.malformed`); `noBearer s` is any header
string, empty included, that does not start with `"Bearer "`. -/
inductive AuthHeader where
  | bearer : Token → AuthHeader
  | noBearer : String → AuthHeader

/-- A `/api/payment` request: the optional `Authorization` header and the
optional `payload_jwe` field of the JSON body. -/
structure PaymentRequest where
  authorization : Option AuthHeader
  payload_jwe : Option Jwe

/-- The JSON body of an HTTP response, paired with its status code.
Failure bodies populate `error`; the success body populates the rest.
`amount` and `clientId` are `none` when the source value is `undefined`. -/
structure Response where
  status : Nat
  success : Bool
  error : Option String
  message : Option String
  transactionId : Option String
  amount : Option Jval
  clientId : Option Jval
  timestamp : Option String

/-- A failure response `{ success: false, error: msg }` with a status. -/
def errResp (st : Nat) (msg : String) : Response :=
  ⟨st, false, some msg, none, none, none, none, none⟩

/-- The catch block of the payment handler: status 401 when the error
message contains "expired" or "Invalid" (substring check), 500 otherwise;
the message is surfaced verbatim either way. -/
def classifyCatch (e : String) : Response :=
  if includes e "expired" || includes e "Invalid" then errResp 401 e else errResp 500 e

/-- The cryptographic operations the handler attempted, in order; used to
state the short-circuit behaviour of the sequential gates. -/
inductive Step where
  | verify : Step
  | decrypt : Step
deriving DecidableEq

/-- `app.post('/api/payment')`: extract the bearer token, verify it, check
`payload_jwe` presence, decrypt, then synthesize the success record.  The
wall clock `now` (seconds) feeds token verification; `uuid` stands for
`crypto.randomUUID()` and `ts` for `new Date().toISOString()`.  Alongside
the response, the list of crypto operations attempted is returned. -/
def handlePayment (req : PaymentRequest) (authKeyId encKeyId : Nat) (now : Nat)
    (uuid ts : String) : Response × List Step :=
  match req.authorization with
  | none => (errResp 401 "Authorization header required", [])
  | some (.noBearer _) => (errResp 401 "Authorization header required", [])
  | some (.bearer tok) =>
    match verifyAuthToken tok authKeyId now with
    | .error e => (classifyCatch e, [Step.verify])
    | .ok authPayload =>
      match req.payload_jwe with
      | none => (errResp 400 "payload_jwe is required", [Step.verify])
      | some jwe =>
        match decryptPayload jwe encKeyId with
        | .error e => (classifyCatch e, [Step.verify, Step.decrypt])
        | .ok paymentData =>
          -- the result literal evaluates `paymentData.amount`; on a null
          -- payload that throws, and the catch block classifies the error
          match getField paymentData "amount" with
          | .error e => (classifyCatch e, [Step.verify, Step.decrypt])
          | .ok amt =>
            (⟨200, true, none, some "Payment processed successfully", some uuid,
              amt, lookupField authPayload.fields "clientId", some ts⟩,
             [Step.verify, Step.decrypt])

/-! ## Specification-side formulations

These definitions restate conditions in the specification's own words; the
theorems below compare them with the code-derived functions. -/

/-- Spec-side: the input is exactly two digits, a slash, and two digits. -/
def mmyyShape (s : String) : Prop :=
  ∃ m1 m2 y1 y2 : Char, s.data = [m1, m2, slash, y1, y2] ∧
    m1.isDigit ∧ m2.isDigit ∧ y1.isDigit ∧ y2.isDigit

/-- Spec-side Luhn doubling: double, and subtract 9 when the doubled value
exceeds 9. -/
def luhnDouble (d : Nat) : Nat := if 9 < 2 * d then 2 * d - 9 else 2 * d

/-- Spec-side: starting from the least-significant digit, double every
second digit (positions 1, 3, 5, … from the right). -/
def doubleAlternate : List Nat → List Nat
  | [] => []
  | [d] => [d]
  | d :: e :: rest => d :: luhnDouble e :: doubleAlternate rest

/-- Spec-side Luhn checksum over the digit values as written (most
significant first): iterate from least- to most-significant, doubling every
second digit starting with the second-from-last, and sum. -/
def luhnSpecSum (ds : List Nat) : Nat :=
  (doubleAlternate ds.reverse).sum

/-- Spec-side: the CVV verdict as a function of the input length alone. -/
def cvvByLength (n : Nat) : Option String :=
  if n = 0 then some "CVV is required"
  else if n < 3 ∨ 4 < n then some "CVV must be 3-4 digits"
  else none

/-- Spec-side: the postal-code verdict as a function of the input length
alone. -/
def postalByLength (n : Nat) : Option String :=
  if n = 0 then some "Postal code is required"
  else if n ≠ 5 then some "Postal code must be 5 digits"
  else none

/-! ## Supporting lemmas about the token authority -/

/-- Full characterization of `verifyAuthToken`: expiry-kind failure exactly
on a properly signed, RS256, right-issuer token whose `exp` has passed;
invalid-kind failure in every other case. -/
theorem verifyAuthToken_eq (tok : Token) (ak now : Nat) :
    verifyAuthToken tok ak now =
      match tok with
      | .malformed _ => Except.error "Invalid auth token"
      | .signed k h p =>
        if k = ak ∧ h.alg = "RS256" ∧ p.iss = issuerName then
          (if p.exp ≤ now then Except.error "Auth token has expired" else Except.ok p)
        else Except.error "Invalid auth token" := by
  rcases tok with ⟨k, hd, p⟩ | s
  · simp only [verifyAuthToken, jwtVerify, List.mem_singleton]
    by_cases hc : k = ak ∧ hd.alg = "RS256" ∧ p.iss = issuerName
    · rw [if_pos hc, if_pos hc]
      by_cases he : p.exp ≤ now
      · rw [if_pos he, if_pos he]
      · rw [if_neg he, if_neg he]
    · rw [if_neg hc, if_neg hc]
  · rfl

/-- The only two error messages `verifyAuthToken` produces. -/
theorem verifyAuthToken_error_msg {tok : Token} {ak now : Nat} {m : String}
    (h : verifyAuthToken tok ak now = Except.error m) :
    m = "Auth token has expired" ∨ m = "Invalid auth token" := by
  rw [verifyAuthToken_eq] at h
  rcases tok with ⟨k, hd, p⟩ | s
  · dsimp only at h
    split at h
    · split at h
      · exact Or.inl (Except.error.inj h).symm
      · cases h
    · exact Or.inr (Except.error.inj h).symm
  · exact Or.inr (Except.error.inj h).symm

/-- The catch block maps both token-verification messages to status 401. -/
theorem classifyCatch_verify_msg {m : String}
    (h : m = "Auth token has expired" ∨ m = "Invalid auth token") :
    classifyCatch m = errResp 401 m := by
  rcases h with h | h <;> subst h <;> rfl

/-! ## Claim theorems -/

/-- C8: `validateCvv` and `validatePostalCode` check only length, never
character content — each verdict is a function of the input's length alone
(empty → required-message; CVV length outside 3–4 → "CVV must be 3-4
digits"; postal length ≠ 5 → "Postal code must be 5 digits"; otherwise
`none`) — so the non-digit values "abc" and "ab1de" pass validation. -/
theorem c8_cvv_postal_length_only : ∀ s : String,
    validateCvv s = cvvByLength s.length
    ∧ validatePostalCode s = postalByLength s.length
    ∧ validateCvv "abc" = none ∧ validatePostalCode "ab1de" = none := by
  intro s
  have hcases : s = "" ∨ (s.isEmpty = false ∧ s.length ≠ 0) := by
    by_cases h : s = ""
    · exact Or.inl h
    · refine Or.inr ⟨?_, ?_⟩
      · rw [Bool.eq_false_iff]
        intro hc
        exact h ((String.isEmpty_iff s).mp hc)
      · intro hc
        exact h (String.ext (List.length_eq_zero.mp hc))
  refine ⟨?_, ?_, rfl, rfl⟩
  · rcases hcases with h | ⟨h1, h2⟩
    · subst h; rfl
    · simp [validateCvv, cvvByLength, h1, h2]
  · rcases hcases with h | ⟨h1, h2⟩
    · subst h; rfl
    · simp [validatePostalCode, postalByLength, h1, h2]

/-- C2: a token issued at `T` verifies successfully strictly before
`T + 300` seconds (in particular at `T + 299`) and fails with the
expiry-kind message "Auth token has expired" from `T + 300` on; every other
failure — tampered or otherwise malformed artifact, wrong signing key,
wrong algorithm, wrong issuer (empty input being an instance of a malformed
artifact) — yields the distinguishable message "Invalid auth token". -/
theorem c2_token_expiry_boundary : ∀ (claims : List (String × Jval)) (ak T t : Nat),
    (verifyAuthToken (issueAuthToken claims ak T) ak (T + t) =
      if 300 ≤ t then Except.error "Auth token has expired"
      else Except.ok ⟨claims, T, T + 300, issuerName⟩)
    ∧ verifyAuthToken (issueAuthToken claims ak T) ak (T + 299) =
        Except.ok ⟨claims, T, T + 300, issuerName⟩
    ∧ verifyAuthToken (issueAuthToken claims ak T) ak (T + 300) =
        Except.error "Auth token has expired"
    ∧ (∀ (tok : Token) (now : Nat),
        verifyAuthToken tok ak now =
          match tok with
          | .malformed _ => Except.error "Invalid auth token"
          | .signed k h p =>
            if k = ak ∧ h.alg = "RS256" ∧ p.iss = issuerName then
              (if p.exp ≤ now then Except.error "Auth token has expired" else Except.ok p)
            else Except.error "Invalid auth token") := by
  intro claims ak T t
  have hgen : ∀ u, verifyAuthToken (issueAuthToken claims ak T) ak (T + u) =
      if 300 ≤ u then Except.error "Auth token has expired"
      else Except.ok ⟨claims, T, T + 300, issuerName⟩ := by
    intro u
    rw [verifyAuthToken_eq]
    simp only [issueAuthToken]
    rw [if_pos (show True ∧ True ∧ True from ⟨trivial, trivial, trivial⟩)]
    by_cases h : 300 ≤ u
    · rw [if_pos (by omega), if_pos h]
    · rw [if_neg (by omega), if_neg h]
  refine ⟨hgen t, ?_, ?_, fun tok now => verifyAuthToken_eq tok ak now⟩
  · rw [hgen 299, if_neg (by omega)]
  · rw [hgen 300, if_pos (by omega)]

/-- C6: decrypting the envelope produced by encrypting a payload `p` under
keypair `k` with the paired private key yields exactly `p`; and decryption
never partially succeeds — it returns either a fully parsed payload or an
error. -/
theorem c6_encrypt_decrypt_roundtrip : ∀ (p : Jval) (k : Nat),
    decryptPayload (encryptPayload p k) k = Except.ok p
    ∧ ∀ (jwe : Jwe) (k' : Nat),
        (∃ v, decryptPayload jwe k' = Except.ok v)
        ∨ (∃ m, decryptPayload jwe k' = Except.error m) := by
  intro p k
  refine ⟨by simp [decryptPayload, encryptPayload, compactDecrypt, jsonParse], ?_⟩
  intro jwe k'
  cases h : decryptPayload jwe k' with
  | error m => exact Or.inr ⟨m, rfl⟩
  | ok v => exact Or.inl ⟨v, rfl⟩

/-- Counterexample to C9: when the decrypted payload is JSON `null` the
success path is not taken — `paymentData.amount` throws a `TypeError`,
which the catch block answers with status 500 and the thrown message, even
though all four gates passed. -/
theorem c9_null_counterexample :
    let r := handlePayment
      ⟨some (.bearer (issueAuthToken [("clientId", Jval.jstr "c1")] 0 5)),
        some (encryptPayload Jval.jnull 1)⟩ 0 1 5 "u" "t"
    r.1.status = 500
    ∧ r.1.success = false
    ∧ r.1.error = some "Cannot read properties of null (reading 'amount')" := by
  exact ⟨rfl, rfl, rfl⟩

/-- C9 as amended: when all four gates pass, the handler performs no schema
check on the decrypted payload beyond the implicit property access
`paymentData.amount` — for every payload on which that access yields a
value (every payload other than JSON `null`, with `undefined` for a missing
field or a non-object) the response is `success: true` with message
"Payment processed successfully", `amount` copied verbatim and `clientId`
copied from the verified claims (`none` when absent); for the JSON `null`
payload the property access throws and the request is answered 500 with the
`TypeError` message. -/
theorem c9_success_no_schema_check : ∀ (tok : Token) (authPayload : JwtPayload)
    (jwe : Jwe) (payload : Jval) (ak ek now : Nat) (uuid ts : String),
    verifyAuthToken tok ak now = Except.ok authPayload →
    decryptPayload jwe ek = Except.ok payload →
    (∀ amt, getField payload "amount" = Except.ok amt →
      handlePayment ⟨some (.bearer tok), some jwe⟩ ak ek now uuid ts =
        (⟨200, true, none, some "Payment processed successfully", some uuid,
          amt, lookupField authPayload.fields "clientId", some ts⟩,
         [Step.verify, Step.decrypt]))
    ∧ (payload ≠ Jval.jnull → ∃ amt, getField payload "amount" = Except.ok amt)
    ∧ (payload = Jval.jnull →
      handlePayment ⟨some (.bearer tok), some jwe⟩ ak ek now uuid ts =
        (errResp 500 "Cannot read properties of null (reading 'amount')",
         [Step.verify, Step.decrypt])) := by
  intro tok ap jwe pl ak ek now uuid ts hv hd
  refine ⟨?_, ?_, ?_⟩
  · intro amt hamt
    simp [handlePayment, hv, hd, hamt]
  · intro hne
    cases pl with
    | jnull => exact absurd rfl hne
    | jbool b => exact ⟨none, rfl⟩
    | jnum q => exact ⟨none, rfl⟩
    | jstr s => exact ⟨none, rfl⟩
    | jarr l => exact ⟨none, rfl⟩
    | jobj fields => exact ⟨lookupField fields "amount", rfl⟩
  · intro hnull
    subst hnull
    have hcl : classifyCatch "Cannot read properties of null (reading 'amount')" =
        errResp 500 "Cannot read properties of null (reading 'amount')" := rfl
    simp [handlePayment, hv, hd, getField, hcl]

/-- Witness for the amended C9: a token for client "c1" with a decrypted
payload that is a bare JSON string (no object shape at all) still yields a
success response, with `amount` absent. -/
theorem c9_success_no_schema_check_witness :
    handlePayment ⟨some (.bearer (issueAuthToken [("clientId", Jval.jstr "c1")] 0 5)),
        some (encryptPayload (Jval.jstr "odd") 1)⟩ 0 1 5 "uuid-1" "ts-1" =
      (⟨200, true, none, some "Payment processed successfully", some "uuid-1",
        none, some (Jval.jstr "c1"), some "ts-1"⟩, [Step.verify, Step.decrypt]) :=
  (c9_success_no_schema_check (issueAuthToken [("clientId", Jval.jstr "c1")] 0 5)
    ⟨[("clientId", Jval.jstr "c1")], 5, 305, issuerName⟩
    (encryptPayload (Jval.jstr "odd") 1)
    (Jval.jstr "odd") 0 1 5 "uuid-1" "ts-1" rfl rfl).1 none rfl

/-- C5: the submit-payment gates run sequentially and short-circuit.  An
absent header or one without the Bearer prefix yields 401 "Authorization
header required" with no crypto operation attempted (empty trace); a
failing token yields the token's own error message at 401 whether or not
`payload_jwe` is present (the presence check comes after verification),
with decryption never attempted; only a verified token with a missing
`payload_jwe` yields 400 "payload_jwe is required". -/
theorem c5_gate_order_short_circuit : ∀ (ak ek now : Nat) (uuid ts : String),
    (∀ jwe, handlePayment ⟨none, jwe⟩ ak ek now uuid ts =
      (errResp 401 "Authorization header required", []))
    ∧ (∀ s jwe, handlePayment ⟨some (.noBearer s), jwe⟩ ak ek now uuid ts =
      (errResp 401 "Authorization header required", []))
    ∧ (∀ tok m jwe, verifyAuthToken tok ak now = Except.error m →
        handlePayment ⟨some (.bearer tok), jwe⟩ ak ek now uuid ts =
          (errResp 401 m, [Step.verify]))
    ∧ (∀ tok p, verifyAuthToken tok ak now = Except.ok p →
        handlePayment ⟨some (.bearer tok), none⟩ ak ek now uuid ts =
          (errResp 400 "payload_jwe is required", [Step.verify])) := by
  intro ak ek now uuid ts
  refine ⟨fun jwe => rfl, fun s jwe => rfl, ?_, ?_⟩
  · intro tok m jwe hv
    have hcl := classifyCatch_verify_msg (verifyAuthToken_error_msg hv)
    simp [handlePayment, hv, hcl]
  · intro tok p hv
    simp [handlePayment, hv]

/-- Witness for C5: concrete instances — no header at all; a bearer header
whose token is garbage while `payload_jwe` is also missing (the token error
wins); a good token with missing `payload_jwe`. -/
theorem c5_gate_order_short_circuit_witness :
    handlePayment ⟨none, none⟩ 0 1 5 "u" "t" =
      (errResp 401 "Authorization header required", [])
    ∧ handlePayment ⟨some (.bearer (.malformed "xx")), none⟩ 0 1 5 "u" "t" =
      (errResp 401 "Invalid auth token", [Step.verify])
    ∧ handlePayment ⟨some (.bearer (issueAuthToken [] 0 5)), none⟩ 0 1 5 "u" "t" =
      (errResp 400 "payload_jwe is required", [Step.verify]) :=
  ⟨(c5_gate_order_short_circuit 0 1 5 "u" "t").1 none,
   (c5_gate_order_short_circuit 0 1 5 "u" "t").2.2.1 _ _ none rfl,
   (c5_gate_order_short_circuit 0 1 5 "u" "t").2.2.2 _ ⟨[], 5, 305, issuerName⟩ rfl⟩

/-- Every error `decryptPayload` produces is the underlying cause's message
prefixed with "Failed to decrypt payload: ". -/
theorem decryptPayload_error_prefixed {jwe : Jwe} {ek : Nat} {m : String}
    (h : decryptPayload jwe ek = Except.error m) :
    ∃ cause, m = "Failed to decrypt payload: " ++ cause := by
  rcases jwe with ⟨k, pt⟩ | k | s
  · by_cases hk : k = ek
    · subst hk
      rcases pt with v | msg
      · simp [decryptPayload, compactDecrypt, jsonParse] at h
      · refine ⟨msg, ?_⟩
        simpa [decryptPayload, compactDecrypt, jsonParse] using h.symm
    · refine ⟨"decryption operation failed", ?_⟩
      simpa [decryptPayload, compactDecrypt, hk] using h.symm
  · exact ⟨"decryption operation failed",
      by simpa [decryptPayload, compactDecrypt] using h.symm⟩
  · exact ⟨"Invalid Compact JWE",
      by simpa [decryptPayload, compactDecrypt] using h.symm⟩

/-- Counterexample to C1: with a valid bearer token, submitting a
structurally well-formed envelope whose authentication tag fails (cause
message "decryption operation failed", which contains neither "expired" nor
"Invalid") is answered with status 500, not 401, even though it is a
decryption failure carrying the message
"Failed to decrypt payload: decryption operation failed". -/
theorem c1_counterexample :
    let r := handlePayment
      ⟨some (.bearer (issueAuthToken [("clientId", Jval.jstr "c1")] 0 100)),
        some (Jwe.tamperedTag 1)⟩ 0 1 100 "u" "t"
    r.1.status = 500
    ∧ r.1.error = some "Failed to decrypt payload: decryption operation failed" := by
  exact ⟨rfl, rfl⟩

/-- C1 as amended: when the credential and envelope gates pass and
decryption fails, the response carries the message
"Failed to decrypt payload: <cause>" verbatim with status 401 exactly when
that message contains the substring "expired" or "Invalid" — e.g. 401 for a
structurally malformed envelope (cause "Invalid Compact JWE") — and status
500 otherwise, e.g. for an authentication-tag or key-unwrap failure (cause
"decryption operation failed"). -/
theorem c1_decrypt_failure_classification : ∀ (claims : List (String × Jval))
    (ak ek T t : Nat) (jwe : Jwe) (uuid ts m : String),
    t < 300 →
    decryptPayload jwe ek = Except.error m →
    (∃ cause, m = "Failed to decrypt payload: " ++ cause)
    ∧ handlePayment ⟨some (.bearer (issueAuthToken claims ak T)), some jwe⟩ ak ek
        (T + t) uuid ts =
        (if includes m "expired" || includes m "Invalid" then errResp 401 m
         else errResp 500 m,
         [Step.verify, Step.decrypt])
    ∧ handlePayment ⟨some (.bearer (issueAuthToken claims ak T)),
        some (Jwe.malformed "x")⟩ ak ek (T + t) uuid ts =
        (errResp 401 "Failed to decrypt payload: Invalid Compact JWE",
         [Step.verify, Step.decrypt]) := by
  intro claims ak ek T t jwe uuid ts m ht hd
  have hv : verifyAuthToken (issueAuthToken claims ak T) ak (T + t) =
      Except.ok ⟨claims, T, T + 300, issuerName⟩ := by
    rw [verifyAuthToken_eq]
    simp only [issueAuthToken]
    rw [if_pos (show True ∧ True ∧ True from ⟨trivial, trivial, trivial⟩),
      if_neg (by omega)]
  refine ⟨decryptPayload_error_prefixed hd, ?_, ?_⟩
  · simp [handlePayment, hv, hd, classifyCatch]
  · have hmal : decryptPayload (Jwe.malformed "x") ek =
        Except.error "Failed to decrypt payload: Invalid Compact JWE" := rfl
    have : classifyCatch "Failed to decrypt payload: Invalid Compact JWE" =
        errResp 401 "Failed to decrypt payload: Invalid Compact JWE" := rfl
    simp [handlePayment, hv, hmal, this]

/-- Witness for the amended C1: concretely, a tag-mismatch envelope behind
a fresh valid token is answered with status 500 and the prefixed message. -/
theorem c1_decrypt_failure_classification_witness :
    decryptPayload (Jwe.tamperedTag 1) 1 =
      Except.error "Failed to decrypt payload: decryption operation failed"
    ∧ handlePayment ⟨some (.bearer (issueAuthToken [] 0 0)), some (Jwe.tamperedTag 1)⟩
        0 1 0 "u" "t" =
      (errResp 500 "Failed to decrypt payload: decryption operation failed",
       [Step.verify, Step.decrypt]) :=
  ⟨rfl, (c1_decrypt_failure_classification [] 0 1 0 0 (Jwe.tamperedTag 1) "u" "t"
    "Failed to decrypt payload: decryption operation failed" (by omega) rfl).2.1⟩

/-- C3: `validateExpirationDate` returns "Expiration date is required" on
empty input; "Expiration date must be MM/YY format" unless the input is
exactly two digits, a slash, and two digits; "Invalid month" unless the
parsed month is 1–12; and "Card has expired" exactly when the first moment
of the month after the stated month/year (year `2000 + YY`, i.e. the
instant `⟨(2000 + YY) * 12 + MM, 0⟩`) is strictly before the current
instant, `none` otherwise — in particular a card whose stated month/year is
the current month (`now.monthIdx = (2000 + YY) * 12 + MM - 1`) is still
valid. -/
theorem c3_expiration_date_validation : ∀ (s : String) (now : Instant),
    (s = "" → validateExpirationDate s now = some "Expiration date is required")
    ∧ (s ≠ "" → ¬ mmyyShape s →
        validateExpirationDate s now = some "Expiration date must be MM/YY format")
    ∧ (∀ m1 m2 y1 y2 : Char, s.data = [m1, m2, slash, y1, y2] →
        m1.isDigit → m2.isDigit → y1.isDigit → y2.isDigit →
        ((¬ (1 ≤ 10 * digitVal m1 + digitVal m2 ∧ 10 * digitVal m1 + digitVal m2 ≤ 12) →
          validateExpirationDate s now = some "Invalid month")
        ∧ (1 ≤ 10 * digitVal m1 + digitVal m2 → 10 * digitVal m1 + digitVal m2 ≤ 12 →
          validateExpirationDate s now =
            if Instant.before
                ⟨(2000 + (10 * digitVal y1 + digitVal y2)) * 12
                  + (10 * digitVal m1 + digitVal m2), 0⟩ now
            then some "Card has expired" else none)
        ∧ (1 ≤ 10 * digitVal m1 + digitVal m2 → 10 * digitVal m1 + digitVal m2 ≤ 12 →
          now.monthIdx = (2000 + (10 * digitVal y1 + digitVal y2)) * 12
            + (10 * digitVal m1 + digitVal m2) - 1 →
          validateExpirationDate s now = none))) := by
  intro s now
  refine ⟨?_, ?_, ?_⟩
  · intro h; subst h; rfl
  · intro hne hshape
    have hie : s.isEmpty = false := by
      rw [Bool.eq_false_iff]
      intro hc
      exact hne ((String.isEmpty_iff s).mp hc)
    unfold validateExpirationDate
    simp only [hie, Bool.false_eq_true, if_false]
    split
    · rename_i m1 m2 c y1 y2 hd
      rw [if_neg]
      intro ⟨h1, h2, h3, h4, h5⟩
      exact hshape ⟨m1, m2, y1, y2, by rw [hd, h3], h1, h2, h4, h5⟩
    · rfl
  · intro m1 m2 y1 y2 hd h1 h2 h3 h4
    have hie : s.isEmpty = false := by
      rw [Bool.eq_false_iff]
      intro hc
      have he := (String.isEmpty_iff s).mp hc
      subst he
      simp at hd
    have hunf : validateExpirationDate s now =
        (if 10 * digitVal m1 + digitVal m2 < 1 ∨ 12 < 10 * digitVal m1 + digitVal m2
         then some "Invalid month"
         else if Instant.before
            ⟨(10 * digitVal y1 + digitVal y2 + 2000) * 12
              + (10 * digitVal m1 + digitVal m2), 0⟩ now
         then some "Card has expired" else none) := by
      unfold validateExpirationDate
      simp only [hie, Bool.false_eq_true, if_false, hd]
      rw [if_pos ⟨h1, h2, trivial, h3, h4⟩]
    refine ⟨?_, ?_, ?_⟩
    · intro hm
      rw [hunf, if_pos (by omega)]
    · intro hm1 hm2
      rw [hunf, if_neg (by omega)]
      rw [show (2000 + (10 * digitVal y1 + digitVal y2)) * 12
          + (10 * digitVal m1 + digitVal m2)
        = (10 * digitVal y1 + digitVal y2 + 2000) * 12
          + (10 * digitVal m1 + digitVal m2) from by ring]
    · intro hm1 hm2 hnow
      rw [hunf, if_neg (by omega), if_neg]
      unfold Instant.before
      simp only [not_or, not_and, not_lt]
      constructor
      · omega
      · intro hEq
        omega

/-- Witness for C3: "12/25" with the current instant inside December 2025
(the stated month itself) is still valid, and a malformed "1/25" is
rejected with the format message. -/
theorem c3_expiration_date_validation_witness :
    validateExpirationDate "12/25" ⟨24311, 999⟩ = none
    ∧ validateExpirationDate "1/25" ⟨24311, 999⟩ =
        some "Expiration date must be MM/YY format" := by
  constructor
  · exact ((c3_expiration_date_validation "12/25" ⟨24311, 999⟩).2.2 '1' '2' '2' '5'
      rfl rfl rfl rfl rfl).2.2 (by decide) (by decide) (by decide)
  · exact (c3_expiration_date_validation "1/25" ⟨24311, 999⟩).2.1 (by decide)
      (by intro ⟨a, b, c, d, he, _⟩; simp at he)

/-- The source's flag-toggling Luhn loop computes the alternate-doubling
sum of the digit values. -/
theorem luhnStep_eq_doubleAlternate : ∀ l : List Char,
    luhnStep false l = (doubleAlternate (l.map digitVal)).sum
  | [] => rfl
  | [c] => by simp [luhnStep, doubleAlternate]
  | c :: e :: rest => by
    simp only [luhnStep, doubleAlternate, List.map_cons, List.sum_cons, Bool.not_false,
      Bool.not_true, luhnDouble, luhnStep_eq_doubleAlternate rest, Bool.false_eq_true,
      if_false, if_true, ite_true, ite_false]

/-- C4: `validateCardNumber` strips `\s` whitespace and rejects with
"Card number must be 13-19 digits" unless the cleaned string is exactly
13–19 decimal digits; otherwise it is valid with empty message exactly when
the Luhn sum (least- to most-significant, doubling every second digit from
the second-from-last, reducing doubled values above 9 by 9) is divisible by
10, and carries "Invalid card number" otherwise.  The known vectors
4111111111111111, 5500000000000004 and 378282246310005 pass and
4111111111111112 fails. -/
theorem c4_card_number_luhn : ∀ s : String,
    (¬ (13 ≤ (s.data.filter (fun c => !(jsIsSpace c))).length
        ∧ (s.data.filter (fun c => !(jsIsSpace c))).length ≤ 19
        ∧ ∀ c ∈ s.data.filter (fun c => !(jsIsSpace c)), c.isDigit) →
      validateCardNumber s = ⟨false, "Card number must be 13-19 digits"⟩)
    ∧ ((13 ≤ (s.data.filter (fun c => !(jsIsSpace c))).length
        ∧ (s.data.filter (fun c => !(jsIsSpace c))).length ≤ 19
        ∧ ∀ c ∈ s.data.filter (fun c => !(jsIsSpace c)), c.isDigit) →
      validateCardNumber s =
        if luhnSpecSum ((s.data.filter (fun c => !(jsIsSpace c))).map digitVal) % 10 = 0
        then ⟨true, ""⟩ else ⟨false, "Invalid card number"⟩)
    ∧ validateCardNumber "4111111111111111" = ⟨true, ""⟩
    ∧ validateCardNumber "5500000000000004" = ⟨true, ""⟩
    ∧ validateCardNumber "378282246310005" = ⟨true, ""⟩
    ∧ validateCardNumber "4111111111111112" = ⟨false, "Invalid card number"⟩ := by
  intro s
  refine ⟨?_, ?_, by decide, by decide, by decide, by decide⟩
  · intro h
    simp only [validateCardNumber, List.all_eq_true]
    rw [if_neg h]
  · intro h
    have hL : luhnStep false (s.data.filter (fun c => !(jsIsSpace c))).reverse =
        luhnSpecSum ((s.data.filter (fun c => !(jsIsSpace c))).map digitVal) := by
      rw [luhnStep_eq_doubleAlternate, luhnSpecSum, List.map_reverse]
    simp only [validateCardNumber, List.all_eq_true]
    rw [if_pos h, hL]

/-- Witness for C4: a short string fails the digit-count gate, a spaced
16-digit Visa number passes the Luhn branch. -/
theorem c4_card_number_luhn_witness :
    validateCardNumber "123" = ⟨false, "Card number must be 13-19 digits"⟩
    ∧ validateCardNumber "4111 1111 1111 1111" = ⟨true, ""⟩ :=
  ⟨(c4_card_number_luhn "123").1 (by decide),
   (c4_card_number_luhn "4111 1111 1111 1111").2.1 (by decide)⟩

/-! ## Supporting lemmas about card-number grouping -/

/-- The groups of `chunk4` concatenate back to the original list. -/
theorem chunk4_flatten : ∀ l : List Char, (chunk4 l).flatten = l
  | [] => rfl
  | [_] => rfl
  | [_, _] => rfl
  | [_, _, _] => rfl
  | a :: b :: c :: d :: rest => by
    simp only [chunk4, List.flatten_cons, chunk4_flatten rest]
    rfl

/-- No group of `chunk4` is empty. -/
theorem chunk4_mem_ne_nil : ∀ (l g : List Char), g ∈ chunk4 l → g ≠ []
  | [], g, hg => by simp [chunk4] at hg
  | [a], g, hg => by simp [chunk4] at hg; simp [hg]
  | [a, b], g, hg => by simp [chunk4] at hg; simp [hg]
  | [a, b, c], g, hg => by simp [chunk4] at hg; simp [hg]
  | a :: b :: c :: d :: rest, g, hg => by
    rcases List.mem_cons.mp hg with h | h
    · simp [h]
    · exact chunk4_mem_ne_nil rest g h

/-- Every group of `chunk4` has at most four characters. -/
theorem chunk4_mem_length : ∀ (l g : List Char), g ∈ chunk4 l → g.length ≤ 4
  | [], g, hg => by simp [chunk4] at hg
  | [a], g, hg => by simp [chunk4] at hg; simp [hg]
  | [a, b], g, hg => by simp [chunk4] at hg; simp [hg]
  | [a, b, c], g, hg => by simp [chunk4] at hg; simp [hg]
  | a :: b :: c :: d :: rest, g, hg => by
    rcases List.mem_cons.mp hg with h | h
    · simp [h]
    · exact chunk4_mem_length rest g h

/-- The number of groups `chunk4` produces. -/
theorem chunk4_length : ∀ l : List Char, (chunk4 l).length = (l.length + 3) / 4
  | [] => rfl
  | [_] => by simp [chunk4]
  | [_, _] => by simp [chunk4]
  | [_, _, _] => by simp [chunk4]
  | a :: b :: c :: d :: rest => by
    simp only [chunk4, List.length_cons, chunk4_length rest]
    omega

/-- `chunk4` on a nonempty list is nonempty. -/
theorem chunk4_ne_nil : ∀ l : List Char, l ≠ [] → chunk4 l ≠ []
  | [], h => absurd rfl h
  | [_], _ => by simp [chunk4]
  | [_, _], _ => by simp [chunk4]
  | [_, _, _], _ => by simp [chunk4]
  | _ :: _ :: _ :: _ :: _, _ => by simp [chunk4]

/-- Chunking past a full group of four peels it off. -/
theorem chunk4_append4 : ∀ (a l : List Char), a.length = 4 →
    chunk4 (a ++ l) = a :: chunk4 l
  | [], _, h => by simp at h
  | [_], _, h => by simp at h
  | [_, _], _, h => by simp at h
  | [_, _, _], _, h => by simp at h
  | [_, _, _, _], _, _ => rfl
  | _ :: _ :: _ :: _ :: _ :: _, _, h => by simp at h

/-- Length of the space-joined groups. -/
theorem joinSp_length : ∀ gs : List (List Char),
    (joinSp gs).length = (gs.map List.length).sum + gs.length - 1
  | [] => rfl
  | [g] => by simp [joinSp]
  | g :: g' :: gs => by
    have ih := joinSp_length (g' :: gs)
    simp only [joinSp, List.length_append, List.length_cons, ih, List.map_cons,
      List.sum_cons, List.length_map] at ih ⊢
    omega

/-- Keeping only digits of the joined groups recovers their concatenation,
when the groups are all digits. -/
theorem joinSp_filter_digits : ∀ gs : List (List Char),
    (∀ g ∈ gs, ∀ c ∈ g, c.isDigit) →
    (joinSp gs).filter Char.isDigit = gs.flatten
  | [], _ => rfl
  | [g], h => by
    simp only [joinSp, List.flatten_cons, List.flatten_nil, List.append_nil]
    exact List.filter_eq_self.mpr (h g (by simp))
  | g :: g' :: gs, h => by
    have hg : g.filter Char.isDigit = g :=
      List.filter_eq_self.mpr (h g (by simp))
    have hsp : Char.isDigit sp = false := rfl
    simp only [joinSp, List.filter_append, List.filter_cons, hsp, Bool.false_eq_true,
      if_false, hg, List.flatten_cons]
    rw [joinSp_filter_digits (g' :: gs) (fun x hx => h x (List.mem_cons_of_mem _ hx))]
    simp [List.flatten_cons]

/-- Every character of the joined groups is a space or comes from a group. -/
theorem joinSp_mem : ∀ (gs : List (List Char)) (c : Char), c ∈ joinSp gs →
    c = sp ∨ ∃ g ∈ gs, c ∈ g
  | [], c, hc => by simp [joinSp] at hc
  | [g], c, hc => Or.inr ⟨g, by simp, hc⟩
  | g :: g' :: gs, c, hc => by
    rcases List.mem_append.mp hc with h | h
    · exact Or.inr ⟨g, by simp, h⟩
    · rcases List.mem_cons.mp h with h | h
      · exact Or.inl h
      · rcases joinSp_mem (g' :: gs) c h with h | ⟨g'', hg'', hcg⟩
        · exact Or.inl h
        · exact Or.inr ⟨g'', List.mem_cons_of_mem _ hg'', hcg⟩

/-- A digit character is not the space character. -/
theorem digit_ne_sp {c : Char} (h : c.isDigit) : c ≠ sp := by
  intro hc
  subst hc
  simp [Char.isDigit, sp] at h

/-- The head of the joined groups is the head of the first group. -/
theorem joinSp_cons_head? (g : List Char) (gs : List (List Char)) (hg : g ≠ []) :
    (joinSp (g :: gs)).head? = g.head? := by
  cases gs with
  | nil => rfl
  | cons g' gs => exact List.head?_append_of_ne_nil _ hg

/-- A member of `getLast?` is a member of the list. -/
theorem mem_of_getLast?_mem {l : List Char} {x : Char} (h : x ∈ l.getLast?) : x ∈ l := by
  obtain ⟨hne, hx⟩ := List.mem_getLast?_eq_getLast h
  rw [hx]
  exact List.getLast_mem hne

/-- A space-free list has no two adjacent spaces. -/
theorem chain_of_no_space : ∀ g : List Char, (∀ c ∈ g, c ≠ sp) →
    List.Chain' (fun a b => ¬(a = sp ∧ b = sp)) g
  | [], _ => List.chain'_nil
  | [c], _ => List.chain'_singleton c
  | c :: e :: rest, h => by
    rw [List.chain'_cons]
    refine ⟨fun ⟨hc, _⟩ => h c (by simp) hc, ?_⟩
    exact chain_of_no_space (e :: rest) (fun x hx => h x (List.mem_cons_of_mem _ hx))

/-- The joined groups have no two adjacent spaces when every group is a
nonempty space-free list. -/
theorem joinSp_chain : ∀ gs : List (List Char),
    (∀ g ∈ gs, g ≠ [] ∧ ∀ c ∈ g, c ≠ sp) →
    List.Chain' (fun a b => ¬(a = sp ∧ b = sp)) (joinSp gs)
  | [], _ => List.chain'_nil
  | [g], h => chain_of_no_space g (h g (by simp)).2
  | g :: g' :: gs, h => by
    show List.Chain' _ (g ++ sp :: joinSp (g' :: gs))
    rw [List.chain'_append]
    refine ⟨chain_of_no_space g (h g (by simp)).2, ?_, ?_⟩
    · rw [List.chain'_cons']
      refine ⟨?_, joinSp_chain (g' :: gs) (fun x hx => h x (List.mem_cons_of_mem _ hx))⟩
      intro y hy hc
      rw [joinSp_cons_head? g' gs (h g' (by simp)).1] at hy
      exact (h g' (by simp)).2 y (List.mem_of_mem_head? hy) hc.2
    · intro x hx y _ hc
      exact (h g (by simp)).2 x (mem_of_getLast?_mem hx) hc.1

/-- Splitting an occurrence across `l₁ ++ m :: l₂`: a contiguous block `t`
avoiding `m` lies entirely in `l₁` or entirely in `l₂`. -/
theorem eq_append_cons_split {α : Type} {l₁ l₂ pre t post : List α} {m : α}
    (h : l₁ ++ m :: l₂ = pre ++ t ++ post) (hm : m ∉ t) :
    (∃ p q, l₁ = p ++ t ++ q) ∨ (∃ p q, l₂ = p ++ t ++ q) := by
  rcases le_or_lt (pre.length + t.length) l₁.length with hA | hBC
  · -- the block ends inside l₁
    left
    have hRT : (pre ++ t ++ post).take (pre.length + t.length) = pre ++ t := by
      rw [show pre.length + t.length = (pre ++ t).length by simp, List.take_left]
    have hLT : (l₁ ++ m :: l₂).take (pre.length + t.length) =
        l₁.take (pre.length + t.length) := by
      rw [List.take_append_eq_append_take, Nat.sub_eq_zero_of_le hA,
        List.take_zero, List.append_nil]
    have hpt : l₁.take (pre.length + t.length) = pre ++ t := by
      rw [← hLT, h, hRT]
    refine ⟨pre, l₁.drop (pre.length + t.length), ?_⟩
    conv_lhs => rw [← List.take_append_drop (pre.length + t.length) l₁]
    rw [hpt, List.append_assoc]
  · rcases le_or_lt pre.length l₁.length with hC | hB
    · -- the block straddles position l₁.length: impossible since m ∉ t
      exfalso
      have hget := congrArg (fun l => l[l₁.length]?) h
      simp only at hget
      rw [List.getElem?_append_right (Nat.le_refl _), Nat.sub_self] at hget
      rw [List.append_assoc, List.getElem?_append_right hC] at hget
      have hlt : l₁.length - pre.length < t.length := by omega
      rw [List.getElem?_append, if_pos hlt] at hget
      have hsome : t[l₁.length - pre.length]? = some m := by
        simpa using hget.symm
      obtain ⟨hbound, hval⟩ := List.getElem?_eq_some.mp hsome
      exact hm (hval ▸ List.getElem_mem hbound)
    · -- the block starts inside l₂
      right
      have hdrop := congrArg (List.drop (l₁.length + 1)) h
      have hl : List.drop (l₁.length + 1) (l₁ ++ m :: l₂) = l₂ := by
        rw [show l₁ ++ m :: l₂ = (l₁ ++ [m]) ++ l₂ by simp,
          show l₁.length + 1 = (l₁ ++ [m]).length by simp, List.drop_left]
      rw [hl, List.append_assoc, List.drop_append_eq_append_drop,
        Nat.sub_eq_zero_of_le (by omega), List.drop_zero] at hdrop
      exact ⟨pre.drop (l₁.length + 1), post, by rw [hdrop, List.append_assoc]⟩

/-- In the space-joined groups, a contiguous space-free block never exceeds
the largest group size. -/
theorem joinSp_no_long_run : ∀ gs : List (List Char),
    (∀ g ∈ gs, g.length ≤ 4) →
    ∀ t pre post : List Char, joinSp gs = pre ++ t ++ post →
    (∀ c ∈ t, c ≠ sp) → t.length ≤ 4
  | [], _, t, pre, post, h, _ => by
    have : t = [] := by
      rcases List.append_eq_nil.mp ((List.append_assoc pre t post ▸ h.symm :
        pre ++ (t ++ post) = [])) with ⟨_, h2⟩
      exact (List.append_eq_nil.mp h2).1
    simp [this]
  | [g], hlen, t, pre, post, h, _ => by
    have hle : t.length ≤ g.length := by
      have := congrArg List.length h
      simp only [joinSp, List.length_append] at this
      omega
    exact hle.trans (hlen g (by simp))
  | g :: g' :: gs, hlen, t, pre, post, h, hdig => by
    have hsp : sp ∉ t := fun hc => hdig sp hc rfl
    have h' : g ++ sp :: joinSp (g' :: gs) = pre ++ t ++ post := h
    rcases eq_append_cons_split h' hsp with ⟨p, q, hg⟩ | ⟨p, q, hj⟩
    · have hle : t.length ≤ g.length := by
        have := congrArg List.length hg
        simp only [List.length_append] at this
        omega
      exact hle.trans (hlen g (by simp))
    · exact joinSp_no_long_run (g' :: gs)
        (fun x hx => hlen x (List.mem_cons_of_mem _ hx)) t p q hj hdig

/-- With at least 17 digits, the 19-character truncation of the formatted
string is exactly the first four groups of four, space-separated. -/
theorem formatCard_take19_long {l : List Char} (h17 : 17 ≤ l.length) :
    (joinSp (chunk4 l)).take 19 =
      l.take 4 ++ sp :: ((l.drop 4).take 4 ++ sp ::
        ((l.drop 8).take 4 ++ sp :: (l.drop 12).take 4)) := by
  have hlen4 : ∀ n : Nat, n + 4 ≤ l.length → ((l.drop n).take 4).length = 4 := by
    intro n hn
    rw [List.length_take, List.length_drop]
    omega
  have ht1 : (l.take 4).length = 4 := by
    rw [List.length_take]; omega
  have ht2 : ((l.drop 4).take 4).length = 4 := hlen4 4 (by omega)
  have ht3 : ((l.drop 8).take 4).length = 4 := hlen4 8 (by omega)
  have ht4 : ((l.drop 12).take 4).length = 4 := hlen4 12 (by omega)
  have hr : l.drop 16 ≠ [] := by
    intro hc
    have := congrArg List.length hc
    rw [List.length_drop] at this
    simp at this
    omega
  -- decompose l into four full groups and a nonempty remainder
  have hdec : l = l.take 4 ++ ((l.drop 4).take 4 ++ ((l.drop 8).take 4 ++
      ((l.drop 12).take 4 ++ l.drop 16))) := by
    have e4 : (l.drop 4).drop 4 = l.drop 8 := by rw [List.drop_drop]
    have e8 : (l.drop 8).drop 4 = l.drop 12 := by rw [List.drop_drop]
    have e12 : (l.drop 12).drop 4 = l.drop 16 := by rw [List.drop_drop]
    conv_lhs => rw [← List.take_append_drop 4 l]
    rw [← e4, ← e8, ← e12]
    conv_lhs => rw [← List.take_append_drop 4 (l.drop 4),
      ← List.take_append_drop 4 ((l.drop 4).drop 4),
      ← List.take_append_drop 4 (((l.drop 4).drop 4).drop 4)]
    rw [e4, e8, e12]
  have hchunks : chunk4 l = l.take 4 :: (l.drop 4).take 4 :: (l.drop 8).take 4 ::
      (l.drop 12).take 4 :: chunk4 (l.drop 16) := by
    conv_lhs => rw [hdec]
    rw [chunk4_append4 _ _ ht1, chunk4_append4 _ _ ht2, chunk4_append4 _ _ ht3,
      chunk4_append4 _ _ ht4]
  obtain ⟨g, gs, hgs⟩ : ∃ g gs, chunk4 (l.drop 16) = g :: gs := by
    rcases hcr : chunk4 (l.drop 16) with _ | ⟨g, gs⟩
    · exact absurd hcr (chunk4_ne_nil _ hr)
    · exact ⟨g, gs, rfl⟩
  rw [hchunks, hgs]
  have hjoin : joinSp (l.take 4 :: (l.drop 4).take 4 :: (l.drop 8).take 4 ::
      (l.drop 12).take 4 :: g :: gs) =
      (l.take 4 ++ sp :: ((l.drop 4).take 4 ++ sp ::
        ((l.drop 8).take 4 ++ sp :: (l.drop 12).take 4))) ++ sp :: joinSp (g :: gs) := by
    show l.take 4 ++ sp :: ((l.drop 4).take 4 ++ sp :: ((l.drop 8).take 4 ++ sp ::
      ((l.drop 12).take 4 ++ sp :: joinSp (g :: gs)))) = _
    simp [List.append_assoc]
  rw [hjoin]
  have hA : (l.take 4 ++ sp :: ((l.drop 4).take 4 ++ sp ::
      ((l.drop 8).take 4 ++ sp :: (l.drop 12).take 4))).length = 19 := by
    simp only [List.length_append, List.length_cons, ht1, ht2, ht3, ht4]
  rw [show (19 : Nat) = (l.take 4 ++ sp :: ((l.drop 4).take 4 ++ sp ::
      ((l.drop 8).take 4 ++ sp :: (l.drop 12).take 4))).length from hA.symm,
    List.take_left]

/-- Keeping only digits of the 19-character truncation, in the ≥17-digit
case: exactly the first sixteen digits in their four groups. -/
theorem formatCard_take19_long_filter {l : List Char} (hdig : ∀ c ∈ l, c.isDigit)
    (h17 : 17 ≤ l.length) :
    ((joinSp (chunk4 l)).take 19).filter Char.isDigit =
      l.take 4 ++ ((l.drop 4).take 4 ++ ((l.drop 8).take 4 ++ (l.drop 12).take 4)) := by
  rw [formatCard_take19_long h17]
  have hsub : ∀ x : List Char, x ⊆ l → x.filter Char.isDigit = x := fun x hx =>
    List.filter_eq_self.mpr (fun a ha => hdig a (hx ha))
  have hspf : Char.isDigit sp = false := rfl
  have e1 := hsub _ (List.take_subset 4 l)
  have e2 := hsub _ ((List.take_subset 4 (l.drop 4)).trans (List.drop_subset 4 l))
  have e3 := hsub _ ((List.take_subset 4 (l.drop 8)).trans (List.drop_subset 8 l))
  have e4 := hsub _ ((List.take_subset 4 (l.drop 12)).trans (List.drop_subset 12 l))
  simp only [List.filter_append, List.filter_cons, hspf, Bool.false_eq_true, if_false,
    e1, e2, e3, e4]

/-- The structural invariants of the card-number formatter, over an
arbitrary all-digit list. -/
theorem formatCardCore_props (d : List Char) (hdig : ∀ c ∈ d, c.isDigit) :
    (∀ c ∈ (joinSp (chunk4 d)).take 19, c.isDigit ∨ c = sp)
    ∧ List.Chain' (fun a b => ¬(a = sp ∧ b = sp)) ((joinSp (chunk4 d)).take 19)
    ∧ (∀ t pre post : List Char, (joinSp (chunk4 d)).take 19 = pre ++ t ++ post →
        (∀ c ∈ t, c.isDigit) → t.length ≤ 4)
    ∧ (((joinSp (chunk4 d)).take 19).filter Char.isDigit).length ≤ 16 := by
  have hgdig : ∀ g ∈ chunk4 d, ∀ c ∈ g, c.isDigit := fun g hg c hc =>
    hdig c (by rw [← chunk4_flatten d]; exact List.mem_flatten.mpr ⟨g, hg, hc⟩)
  refine ⟨?_, ?_, ?_, ?_⟩
  · intro c hc
    rcases joinSp_mem (chunk4 d) c ((List.take_sublist 19 _).subset hc) with h | ⟨g, hg, hcg⟩
    · exact Or.inr h
    · exact Or.inl (hgdig g hg c hcg)
  · exact (joinSp_chain (chunk4 d) (fun g hg =>
      ⟨chunk4_mem_ne_nil d g hg, fun c hc => digit_ne_sp (hgdig g hg c hc)⟩)).take 19
  · intro t pre post heq hdigt
    have hjoin : joinSp (chunk4 d) =
        pre ++ t ++ (post ++ (joinSp (chunk4 d)).drop 19) := by
      conv_lhs => rw [← List.take_append_drop 19 (joinSp (chunk4 d))]
      rw [heq]
      simp [List.append_assoc]
    exact joinSp_no_long_run (chunk4 d) (chunk4_mem_length d) t pre _ hjoin
      (fun c hc => digit_ne_sp (hdigt c hc))
  · by_cases h16 : d.length ≤ 16
    · have hle := (((List.take_sublist 19 (joinSp (chunk4 d))).filter
        Char.isDigit).length_le)
      rw [joinSp_filter_digits _ hgdig, chunk4_flatten] at hle
      omega
    · rw [formatCard_take19_long_filter hdig (by omega)]
      simp only [List.length_append, List.length_take, List.length_drop]
      omega

/-- C7: for every input, the card-number formatter's output contains only
digits and spaces with no two adjacent spaces, every contiguous digit block
has at most 4 digits, the total digit count is at most 16, and the output
is exactly the non-digits-stripped input grouped by four, space-joined and
truncated to 19 characters. -/
theorem c7_format_card_number_shape : ∀ s : String,
    (∀ c ∈ (formatCardNumber s).data, c.isDigit ∨ c = sp)
    ∧ List.Chain' (fun a b => ¬(a = sp ∧ b = sp)) (formatCardNumber s).data
    ∧ (∀ t pre post : List Char, (formatCardNumber s).data = pre ++ t ++ post →
        (∀ c ∈ t, c.isDigit) → t.length ≤ 4)
    ∧ ((formatCardNumber s).data.filter Char.isDigit).length ≤ 16
    ∧ (formatCardNumber s).data
        = (joinSp (chunk4 (s.data.filter Char.isDigit))).take 19 := by
  intro s
  have hdig : ∀ c ∈ s.data.filter Char.isDigit, c.isDigit := fun c hc =>
    (List.mem_filter.mp hc).2
  obtain ⟨h1, h2, h3, h4⟩ := formatCardCore_props (s.data.filter Char.isDigit) hdig
  exact ⟨h1, h2, h3, h4, rfl⟩

/-- Witness for C7: the invariants evaluated on a 20-digit input — the
output keeps 16 digits in four groups. -/
theorem c7_format_card_number_shape_witness :
    ((formatCardNumber "99988877766655544433").data.filter Char.isDigit).length ≤ 16
    ∧ formatCardNumber "99988877766655544433" = "9998 8877 7666 5554" :=
  ⟨(c7_format_card_number_shape "99988877766655544433").2.2.2.1, by decide⟩

/-- A sublist of an all-digit filtered list is left unchanged by another
digit filter. -/
theorem filter_digits_of_subset_filter {l x : List Char}
    (hx : x ⊆ l.filter Char.isDigit) : x.filter Char.isDigit = x :=
  List.filter_eq_self.mpr fun _ ha => (List.mem_filter.mp (hx ha)).2

/-- Every character of every group of `chunk4 d` is a character of `d`. -/
theorem chunk4_groups_digit {d : List Char} (hdig : ∀ c ∈ d, c.isDigit) :
    ∀ g ∈ chunk4 d, ∀ c ∈ g, c.isDigit := fun g hg c hc =>
  hdig c (by rw [← chunk4_flatten d]; exact List.mem_flatten.mpr ⟨g, hg, hc⟩)

/-- A list of exactly four characters is its own single group. -/
theorem chunk4_of_length4 {a : List Char} (ha : a.length = 4) : chunk4 a = [a] := by
  have h := chunk4_append4 a [] ha
  simpa using h

/-- The card-number formatter core is idempotent. -/
theorem formatCardNumberL_idem : ∀ l : List Char,
    formatCardNumberL (formatCardNumberL l) = formatCardNumberL l := by
  intro l
  have hmain : ∀ d : List Char, (∀ c ∈ d, c.isDigit) →
      formatCardNumberL ((joinSp (chunk4 d)).take 19) = (joinSp (chunk4 d)).take 19 := by
    intro d hdig
    by_cases h16 : d.length ≤ 16
    · have hjl : (joinSp (chunk4 d)).length ≤ 19 := by
        have hsum : ((chunk4 d).map List.length).sum = d.length := by
          rw [← List.length_flatten, chunk4_flatten]
        rw [joinSp_length, chunk4_length, hsum]
        omega
      rw [List.take_of_length_le hjl]
      show (joinSp (chunk4 ((joinSp (chunk4 d)).filter Char.isDigit))).take 19 = _
      rw [joinSp_filter_digits _ (chunk4_groups_digit hdig), chunk4_flatten,
        List.take_of_length_le hjl]
    · have h17 : 17 ≤ d.length := by omega
      have ht1 : (d.take 4).length = 4 := by rw [List.length_take]; omega
      have ht2 : ((d.drop 4).take 4).length = 4 := by
        rw [List.length_take, List.length_drop]; omega
      have ht3 : ((d.drop 8).take 4).length = 4 := by
        rw [List.length_take, List.length_drop]; omega
      have ht4 : ((d.drop 12).take 4).length = 4 := by
        rw [List.length_take, List.length_drop]; omega
      show (joinSp (chunk4 (((joinSp (chunk4 d)).take 19).filter
        Char.isDigit))).take 19 = _
      rw [formatCard_take19_long_filter hdig h17,
        chunk4_append4 _ _ ht1, chunk4_append4 _ _ ht2, chunk4_append4 _ _ ht3,
        chunk4_of_length4 ht4, formatCard_take19_long h17]
      show (d.take 4 ++ sp :: ((d.drop 4).take 4 ++ sp ::
        ((d.drop 8).take 4 ++ sp :: (d.drop 12).take 4))).take 19 = _
      rw [List.take_of_length_le (le_of_eq (by
        simp only [List.length_append, List.length_cons, ht1, ht2, ht3, ht4]))]
  exact hmain (l.filter Char.isDigit) (fun c hc => (List.mem_filter.mp hc).2)

/-- C10: each of the four formatters is idempotent — re-applying any of
them to its own output never changes the value. -/
theorem c10_formatters_idempotent : ∀ s : String,
    formatCardNumber (formatCardNumber s) = formatCardNumber s
    ∧ formatExpirationDate (formatExpirationDate s) = formatExpirationDate s
    ∧ formatCvv (formatCvv s) = formatCvv s
    ∧ formatPostalCode (formatPostalCode s) = formatPostalCode s := by
  intro s
  refine ⟨?_, ?_, ?_, ?_⟩
  · show (⟨formatCardNumberL (formatCardNumberL s.data)⟩ : String) = ⟨formatCardNumberL s.data⟩
    rw [formatCardNumberL_idem]
  · by_cases h2 : 2 ≤ (s.data.filter Char.isDigit).length
    · have hin : formatExpirationDate s =
          ⟨(s.data.filter Char.isDigit).take 2 ++ slash ::
            ((s.data.filter Char.isDigit).drop 2).take 2⟩ := by
        simp only [formatExpirationDate]
        rw [if_pos h2]
      have hslash : Char.isDigit slash = false := rfl
      have e1 : ((s.data.filter Char.isDigit).take 2).filter Char.isDigit =
          (s.data.filter Char.isDigit).take 2 :=
        filter_digits_of_subset_filter (List.take_subset _ _)
      have e2 : (((s.data.filter Char.isDigit).drop 2).take 2).filter Char.isDigit =
          ((s.data.filter Char.isDigit).drop 2).take 2 :=
        filter_digits_of_subset_filter
          ((List.take_subset _ _).trans (List.drop_subset _ _))
      have hl2 : ((s.data.filter Char.isDigit).take 2).length = 2 := by
        rw [List.length_take]; omega
      have hfc : ((s.data.filter Char.isDigit).take 2 ++ slash ::
          ((s.data.filter Char.isDigit).drop 2).take 2).filter Char.isDigit =
          (s.data.filter Char.isDigit).take 2 ++
            ((s.data.filter Char.isDigit).drop 2).take 2 := by
        rw [List.filter_append, List.filter_cons]
        simp only [hslash, Bool.false_eq_true, if_false, e1, e2]
      rw [hin]
      simp only [formatExpirationDate]
      rw [hfc]
      rw [if_pos (by
        rw [List.length_append, hl2]
        omega)]
      have htk : ((s.data.filter Char.isDigit).take 2 ++
          ((s.data.filter Char.isDigit).drop 2).take 2).take 2 =
          (s.data.filter Char.isDigit).take 2 := by
        rw [List.take_append_of_le_length (by omega), List.take_take]
        simp
      have hdp : ((s.data.filter Char.isDigit).take 2 ++
          ((s.data.filter Char.isDigit).drop 2).take 2).drop 2 =
          ((s.data.filter Char.isDigit).drop 2).take 2 := by
        rw [List.drop_append_eq_append_drop,
          List.drop_of_length_le (le_of_eq hl2), hl2]
        simp
      rw [htk, hdp, List.take_take]
      simp
    · have hin : formatExpirationDate s = ⟨s.data.filter Char.isDigit⟩ := by
        simp only [formatExpirationDate]
        rw [if_neg h2]
      rw [hin]
      simp only [formatExpirationDate]
      have hf : (⟨s.data.filter Char.isDigit⟩ : String).data.filter Char.isDigit =
          s.data.filter Char.isDigit := by
        show (s.data.filter Char.isDigit).filter Char.isDigit = _
        exact filter_digits_of_subset_filter (fun a ha => ha)
      rw [hf, if_neg h2]
  · show (⟨(((s.data.filter Char.isDigit).take 4).filter Char.isDigit).take 4⟩ : String)
      = ⟨(s.data.filter Char.isDigit).take 4⟩
    rw [filter_digits_of_subset_filter (List.take_subset _ _), List.take_take]
    simp
  · show (⟨(((s.data.filter Char.isDigit).take 5).filter Char.isDigit).take 5⟩ : String)
      = ⟨(s.data.filter Char.isDigit).take 5⟩
    rw [filter_digits_of_subset_filter (List.take_subset _ _), List.take_take]
    simp

end PW
